import Mathlib

/-
Verification development for the CarWash booking system
(src/CarWashBerezivka.py).

Modelling conventions:
  * A point in time is an `Int`, counted in minutes since a fixed epoch.
    The calendar date of a time `t` is its day index `Int.fdiv t 1440`
    (floor division, 1440 minutes per day), and the minute-of-day is
    `Int.emod t 1440`.  The working window of day `d` therefore runs from
    `d * 1440 + 9 * 60` to `d * 1440 + 21 * 60`.
  * A database row of the `bookings` table (joined with its program's
    duration, as the availability query does) is the structure `Booking`.
  * Handlers that mutate one row become pure functions from the row (and
    the current time `now`) to `Except`-style results; the set of
    customer notifications a handler issues through `send_notify` is made
    explicit as a list of recipient user ids.
-/

/-- Constant `BUFFER_MINUTES = 1` from the source configuration. -/
def BUFFER_MINUTES : Int := 1

/-- Booking status domain: the `status` column holds one of
`scheduled | in_progress | finished`. -/
inductive Status where
  | scheduled
  | in_progress
  | finished
deriving DecidableEq, Repr

/-- One row of the `bookings` table, annotated with its program's
duration (`pdur` from the LEFT JOIN; `none` when the program was
deleted).  `bdt` is the nominal `booking_datetime` in minutes. -/
structure Booking where
  id : Nat
  user_id : Nat
  bdt : Int
  program_dur : Option Int
  status : Status
  actual_start : Option Int
  actual_end : Option Int
deriving DecidableEq, Repr

/-- Error outcomes of the lifecycle handlers `start_wash` / `finish_wash`. -/
inductive WashError where
  | alreadyStarted
  | alreadyFinished
deriving DecidableEq, Repr

/-- The per-booking conflict test of `get_available_hours`
(src lines 226-241): the effective interval of `rec` is computed from
its status (`actual_start or bdt`, `actual_end or start + pdur` for
in_progress/finished; nominal interval for scheduled, with
`int(pdur or 0)` turning a missing program duration into 0), expanded by
`BUFFER_MINUTES` on both ends, and the candidate `[start, stop)`
conflicts unless `stop <= b_start or start >= b_end`. -/
def conflicts (start stop : Int) (rec : Booking) : Bool :=
  let bounds :=
    match rec.status with
    | Status.in_progress | Status.finished =>
        let b_start := rec.actual_start.getD rec.bdt
        let b_end := rec.actual_end.getD (b_start + rec.program_dur.getD 0)
        (b_start, b_end)
    | Status.scheduled =>
        let b_start := rec.bdt
        (b_start, b_start + rec.program_dur.getD 0)
  let b_start := bounds.1 - BUFFER_MINUTES
  let b_end := bounds.2 + BUFFER_MINUTES
  !(decide (stop ≤ b_start) || decide (start ≥ b_end))

/-- The availability computation `get_available_hours(program_id,
booking_date)` (src lines 176-246).
`dur_row` is the program's duration looked up in the catalog (`none`
when the program does not exist, which returns `[]`).  `booking_date`
is the requested day index, `now` the current time, `booked` the rows
fetched for that date.  Candidates are the whole hours 9..20 of the
day; a candidate is dropped when it is before `min_allowed_start`
(which is `max(work_start, now + BUFFER_MINUTES)` when the date is
today's date), when it ends after `work_end`, or when it conflicts with
some fetched booking.  The surviving starts are returned in order. -/
def get_available_hours (dur_row : Option Int) (booking_date : Int)
    (now : Int) (booked : List Booking) : List Int :=
  match dur_row with
  | none => []
  | some duration =>
    let day_start : Int := booking_date * 1440
    let work_start : Int := day_start + 9 * 60
    let work_end : Int := day_start + 21 * 60
    let min_allowed_start : Int :=
      if booking_date = Int.fdiv now 1440 then
        max work_start (now + BUFFER_MINUTES)
      else work_start
    let candidate_starts : List Int :=
      (List.range 12).map (fun (h : Nat) => day_start + ((9 : Int) + (h : Int)) * 60)
    candidate_starts.filter (fun start =>
      decide (¬ start < min_allowed_start) &&
      decide (¬ start + duration > work_end) &&
      !(booked.any (fun rec => conflicts start (start + duration) rec)))

/-- Effective interval start of a booking, following the wording of the
specification (§3): for in_progress/finished it is
`actual_start ?? booking_datetime`, for scheduled the nominal time. -/
def effectiveStart (rec : Booking) : Int :=
  match rec.status with
  | Status.scheduled => rec.bdt
  | _ => rec.actual_start.getD rec.bdt

/-- Effective interval end of a booking, following the wording of the
specification (§3): for in_progress/finished it is
`actual_end ?? (effective_start + duration)`, for scheduled
`booking_datetime + duration` (§3 treats a removed program's duration
as zero). -/
def effectiveEnd (rec : Booking) : Int :=
  match rec.status with
  | Status.scheduled => rec.bdt + rec.program_dur.getD 0
  | _ => rec.actual_end.getD (effectiveStart rec + rec.program_dur.getD 0)

/-- The conflict predicate as the specification words it (§4.1): the
candidate `[s, e)` conflicts with `rec` unless
`e ≤ effStart - buffer ∨ s ≥ effEnd + buffer`. -/
def specConflict (s e : Int) (rec : Booking) : Prop :=
  ¬ (e ≤ effectiveStart rec - BUFFER_MINUTES ∨
     s ≥ effectiveEnd rec + BUFFER_MINUTES)

instance (s e : Int) (rec : Booking) : Decidable (specConflict s e rec) := by
  unfold specConflict; infer_instance

/-- Handler `start_wash` (src lines 400-430), restricted to the row update: a
booking `in_progress` is rejected with AlreadyStarted, `finished` with
AlreadyFinished; otherwise the row is updated with
`status='in_progress', actual_start=NOW()` (the assignment is
unconditional in the source - no COALESCE). -/
def start_wash (b : Booking) (now : Int) : Except WashError Booking :=
  match b.status with
  | Status.in_progress => Except.error WashError.alreadyStarted
  | Status.finished => Except.error WashError.alreadyFinished
  | Status.scheduled =>
      Except.ok { b with status := Status.in_progress,
                         actual_start := some now }

/-- Handler `finish_wash` (src lines 432-468), restricted to the row update: a
booking already `finished` is rejected with AlreadyFinished; otherwise
`status='finished', actual_start=COALESCE(actual_start, NOW()),
actual_end=NOW()`. -/
def finish_wash (b : Booking) (now : Int) : Except WashError Booking :=
  if b.status = Status.finished then Except.error WashError.alreadyFinished
  else Except.ok { b with status := Status.finished,
                          actual_start := some (b.actual_start.getD now),
                          actual_end := some now }

/-- The row update of `cmd_edit` (src lines 821-851): `booking_datetime`
is rebuilt from the provided pieces (new date with new time; new date
with the old time-of-day; the old date with the new time), and `status`
is overwritten when provided.  `newDate` is a day index, `newTime` a
minute-of-day. -/
def cmd_edit_update (b : Booking) (newDate : Option Int)
    (newTime : Option Int) (newStatus : Option Status) : Booking :=
  let updated_dt : Int :=
    match newDate, newTime with
    | some d, some t => d * 1440 + t
    | some d, none => d * 1440 + Int.emod b.bdt 1440
    | none, some t => Int.fdiv b.bdt 1440 * 1440 + t
    | none, none => b.bdt
  { b with bdt := updated_dt, status := newStatus.getD b.status }

/-- The data-model invariant of §3: a set `actual_end` implies status
finished, a set `actual_start` implies status in_progress or finished. -/
def bookingInv (b : Booking) : Prop :=
  (b.actual_end ≠ none → b.status = Status.finished) ∧
  (b.actual_start ≠ none →
    b.status = Status.in_progress ∨ b.status = Status.finished)

instance (b : Booking) : Decidable (bookingInv b) := by
  unfold bookingInv; infer_instance

/-- The fold step realising `ORDER BY booking_datetime ASC, id ASC
LIMIT 1`: keep the candidate that is smaller in the lexicographic
(booking_datetime, id) order. -/
def nextStep (acc : Option Booking) (b : Booking) : Option Booking :=
  match acc with
  | none => some b
  | some a =>
      if b.bdt < a.bdt ∨ (b.bdt = a.bdt ∧ b.id < a.id) then some b else some a

/-- The `next_booking` query of `notify_next_after_buffer`
(src lines 136-145): among all bookings with `status='scheduled'` and
`booking_datetime > fbdt`, the row minimal under
`ORDER BY booking_datetime ASC, id ASC` (none when there is no such
row). -/
def next_booking (bookings : List Booking) (fbdt : Int) : Option Booking :=
  (bookings.filter
    (fun b => decide (b.status = Status.scheduled ∧ fbdt < b.bdt))).foldl
    nextStep none

/-- The deferred-notification routine `notify_next_after_buffer`
(src lines 129-166).  `fbdt` is the
finished booking's nominal `booking_datetime`, `bookings` the stored
rows (after the finish update), `now` the current time.  The selected
next booking is discarded when its date differs from the finished
booking's date; otherwise a deferred `send_notify` to it is scheduled
after `delay = max(notify_time - now, 0)` with
`notify_time = fbdt + BUFFER_MINUTES`.  The result is the notified
booking together with that delay (in minutes), `none` when nothing is
scheduled. -/
def notify_next_after_buffer (bookings : List Booking) (fbdt : Int)
    (now : Int) : Option (Booking × Int) :=
  match next_booking bookings fbdt with
  | none => none
  | some nb =>
      if Int.fdiv nb.bdt 1440 = Int.fdiv fbdt 1440 then
        some (nb, max (fbdt + BUFFER_MINUTES - now) 0)
      else none

/-- Handler `start_wash` together with its `send_notify` side effects: the
handler only replies to the invoking admin chat (`message.answer`); it
never calls `send_notify`, so the list of notified customer user ids is
empty in every branch (src lines 400-430). -/
def start_wash_op (b : Booking) (now : Int) :
    Except WashError Booking × List Nat :=
  (start_wash b now, [])

/-- Handler `finish_wash` together with its `send_notify` side effects
(src lines 432-468): besides the admin reply, a successful finish runs
`notify_next_after_buffer`, whose deferred action sends one
`send_notify` to the selected next booking's `user_id`; no other
`send_notify` is issued (in particular none to the finished booking's
own customer).  `others` are the remaining stored rows. -/
def finish_wash_op (b : Booking) (others : List Booking) (now : Int) :
    Except WashError Booking × List Nat :=
  match finish_wash b now with
  | Except.error e => (Except.error e, [])
  | Except.ok b2 =>
      (Except.ok b2,
       match notify_next_after_buffer (b2 :: others) b2.bdt now with
       | some (nb, _) => [nb.user_id]
       | none => [])

/-- Handler `cmd_edit` together with its `send_notify` side effect
(src lines 821-861): when no date, time or status argument is supplied
the handler answers "nothing changed" and performs no update and no
notification; otherwise it updates the row and sends one `send_notify`
to the booking's `user_id`. -/
def cmd_edit_op (b : Booking) (newDate : Option Int) (newTime : Option Int)
    (newStatus : Option Status) : Booking × List Nat :=
  if newDate.isNone && newTime.isNone && newStatus.isNone then (b, [])
  else (cmd_edit_update b newDate newTime newStatus, [b.user_id])

/-- Lexicographic (booking_datetime, id) order used by the `ORDER BY
booking_datetime ASC, id ASC` clause. -/
def keyLe (a b : Booking) : Prop :=
  a.bdt ≤ b.bdt ∧ (a.bdt = b.bdt → a.id ≤ b.id)

theorem keyLe_refl (a : Booking) : keyLe a a :=
  ⟨le_refl _, fun _ => le_refl _⟩

theorem keyLe_trans {a b c : Booking} (h1 : keyLe a b) (h2 : keyLe b c) :
    keyLe a c := by
  obtain ⟨hab, haid⟩ := h1
  obtain ⟨hbc, hbid⟩ := h2
  refine ⟨le_trans hab hbc, fun hac => ?_⟩
  have hb1 : a.bdt = b.bdt := by omega
  have hb2 : b.bdt = c.bdt := by omega
  exact le_trans (haid hb1) (hbid hb2)

theorem nextStep_min (a b : Booking) :
    ∃ m, nextStep (some a) b = some m ∧ (m = a ∨ m = b) ∧
      keyLe m a ∧ keyLe m b := by
  by_cases h : b.bdt < a.bdt ∨ (b.bdt = a.bdt ∧ b.id < a.id)
  · refine ⟨b, by simp [nextStep, h], Or.inr rfl, ?_, keyLe_refl b⟩
    rcases h with h | ⟨h1, h2⟩
    · exact ⟨le_of_lt h, fun he => absurd he (by omega)⟩
    · exact ⟨le_of_eq h1, fun _ => le_of_lt h2⟩
  · refine ⟨a, by simp [nextStep, h], Or.inl rfl, keyLe_refl a, ?_⟩
    push_neg at h
    exact ⟨h.1, fun he => h.2 he.symm⟩

theorem foldl_nextStep_min :
    ∀ (l : List Booking) (a : Booking),
      ∃ m, l.foldl nextStep (some a) = some m ∧ (m = a ∨ m ∈ l) ∧
        keyLe m a ∧ ∀ b ∈ l, keyLe m b := by
  intro l
  induction l with
  | nil =>
      intro a
      exact ⟨a, rfl, Or.inl rfl, keyLe_refl a, by simp⟩
  | cons x xs ih =>
      intro a
      obtain ⟨a2, hstep, hca, hk1, hk2⟩ := nextStep_min a x
      obtain ⟨m, hfold, hm, hma2, hall⟩ := ih a2
      refine ⟨m, ?_, ?_, keyLe_trans hma2 hk1, ?_⟩
      · rw [List.foldl_cons, hstep]; exact hfold
      · rcases hm with rfl | hmem
        · rcases hca with rfl | rfl
          · exact Or.inl rfl
          · exact Or.inr (List.mem_cons_self _ _)
        · exact Or.inr (List.mem_cons_of_mem _ hmem)
      · intro b hb
        rcases List.mem_cons.mp hb with rfl | hb2
        · exact keyLe_trans hma2 hk2
        · exact hall b hb2

theorem foldl_nextStep_none {l : List Booking} {nb : Booking}
    (h : l.foldl nextStep none = some nb) :
    nb ∈ l ∧ ∀ b ∈ l, keyLe nb b := by
  cases l with
  | nil => simp at h
  | cons x xs =>
      rw [List.foldl_cons, show nextStep none x = some x from rfl] at h
      obtain ⟨m, hfold, hm, hma, hall⟩ := foldl_nextStep_min xs x
      rw [hfold] at h
      obtain rfl : m = nb := by injection h
      constructor
      · rcases hm with rfl | hmem
        · exact List.mem_cons_self _ _
        · exact List.mem_cons_of_mem _ hmem
      · intro b hb
        rcases List.mem_cons.mp hb with rfl | hb2
        · exact hma
        · exact hall b hb2

theorem next_booking_min {bookings : List Booking} {fbdt : Int}
    {nb : Booking} (h : next_booking bookings fbdt = some nb) :
    (nb ∈ bookings ∧ nb.status = Status.scheduled ∧ fbdt < nb.bdt) ∧
    ∀ b ∈ bookings, b.status = Status.scheduled → fbdt < b.bdt →
      keyLe nb b := by
  unfold next_booking at h
  obtain ⟨hmem, hall⟩ := foldl_nextStep_none h
  rw [List.mem_filter] at hmem
  have hp := of_decide_eq_true hmem.2
  refine ⟨⟨hmem.1, hp.1, hp.2⟩, ?_⟩
  intro b hb hs hlt
  exact hall b (List.mem_filter.mpr ⟨hb, decide_eq_true ⟨hs, hlt⟩⟩)

theorem conflicts_iff (s e : Int) (rec : Booking) :
    conflicts s e rec = true ↔ specConflict s e rec := by
  rcases rec with ⟨i, u, bdt, pdur, st, as0, ae0⟩
  cases st <;>
    simp [conflicts, specConflict, effectiveStart, effectiveEnd,
      BUFFER_MINUTES, not_or]

theorem mem_get_available_hours
    {duration booking_date now : Int} {booked : List Booking} {s : Int}
    (hs : s ∈ get_available_hours (some duration) booking_date now booked) :
    (∃ h : Nat, h < 12 ∧ s = booking_date * 1440 + ((9 : Int) + (h : Int)) * 60) ∧
    ¬ s < (if booking_date = Int.fdiv now 1440 then
        max (booking_date * 1440 + 9 * 60) (now + BUFFER_MINUTES)
      else booking_date * 1440 + 9 * 60) ∧
    s + duration ≤ booking_date * 1440 + 21 * 60 ∧
    ∀ rec ∈ booked, conflicts s (s + duration) rec = false := by
  simp only [get_available_hours, List.mem_filter] at hs
  obtain ⟨hmem, hcond⟩ := hs
  obtain ⟨h, hh, hform⟩ := List.mem_map.mp hmem
  rw [List.mem_range] at hh
  simp only [Bool.and_eq_true, decide_eq_true_eq, Bool.not_eq_true',
    List.any_eq_false] at hcond
  obtain ⟨⟨h1, h2⟩, h3⟩ := hcond
  refine ⟨⟨h, hh, hform.symm⟩, h1, by omega, fun rec hr => ?_⟩
  simpa using h3 rec hr

/-- Claim C1: with program duration 60 minutes, buffer 1 minute, working
window 09:00-21:00, and exactly one scheduled booking at nominal 10:00
on the requested date (day 1; the request is made on day 0, so the
date is not today), `get_available_hours` excludes 09:00 (1980), 10:00
(2040) and 11:00 (2100), and its earliest returned start is 12:00
(2160). -/
theorem c1_scenario_first_free_slot_is_noon :
    (1980 : Int) ∉ get_available_hours (some 60) 1 600
      [{ id := 1, user_id := 100, bdt := 2040, program_dur := some 60,
         status := Status.scheduled, actual_start := none, actual_end := none }] ∧
    (2040 : Int) ∉ get_available_hours (some 60) 1 600
      [{ id := 1, user_id := 100, bdt := 2040, program_dur := some 60,
         status := Status.scheduled, actual_start := none, actual_end := none }] ∧
    (2100 : Int) ∉ get_available_hours (some 60) 1 600
      [{ id := 1, user_id := 100, bdt := 2040, program_dur := some 60,
         status := Status.scheduled, actual_start := none, actual_end := none }] ∧
    (get_available_hours (some 60) 1 600
      [{ id := 1, user_id := 100, bdt := 2040, program_dur := some 60,
         status := Status.scheduled, actual_start := none,
         actual_end := none }]).head? = some 2160 := by
  decide

/-- Claim C2: the conflict test used by `get_available_hours` declares a
conflict on a booking exactly when
NOT (candidateEnd <= effStart - buffer OR candidateStart >= effEnd + buffer)
with the effective interval computed from the booking's status as the
specification describes, and a candidate start is kept only if it
conflicts with no fetched booking. -/
theorem c2_conflict_test_matches_spec :
    (∀ (s e : Int) (rec : Booking),
      conflicts s e rec = true ↔ specConflict s e rec) ∧
    (∀ (duration booking_date now : Int) (booked : List Booking) (s : Int),
      s ∈ get_available_hours (some duration) booking_date now booked →
      ∀ rec ∈ booked, ¬ specConflict s (s + duration) rec) := by
  refine ⟨conflicts_iff, ?_⟩
  intro duration booking_date now booked s hs rec hrec hc
  have hfalse := (mem_get_available_hours hs).2.2.2 rec hrec
  have htrue := (conflicts_iff s (s + duration) rec).mpr hc
  rw [hfalse] at htrue
  exact Bool.false_ne_true htrue

/-- Witness for C2 at a concrete input: the kept start 12:00 (2160) of
the C1 scenario does not conflict with the 10:00 scheduled booking. -/
theorem c2_conflict_test_matches_spec_witness :
    ¬ specConflict 2160 (2160 + 60)
      { id := 1, user_id := 100, bdt := 2040, program_dur := some 60,
        status := Status.scheduled, actual_start := none, actual_end := none } :=
  c2_conflict_test_matches_spec.2 60 1 600
    [{ id := 1, user_id := 100, bdt := 2040, program_dur := some 60,
       status := Status.scheduled, actual_start := none, actual_end := none }]
    2160 (by decide)
    { id := 1, user_id := 100, bdt := 2040, program_dur := some 60,
      status := Status.scheduled, actual_start := none, actual_end := none }
    (by decide)

/-- Claim C3: every start returned by `get_available_hours` is at or
after 09:00 of the requested day, ends within the working window
(start + duration at or before 21:00), is at or after
`now + BUFFER_MINUTES` when the requested date is today's date, is a
whole hour, and the returned list is strictly ascending. -/
theorem c3_returned_starts_in_window :
    ∀ (duration booking_date now : Int) (booked : List Booking),
      (∀ s ∈ get_available_hours (some duration) booking_date now booked,
        booking_date * 1440 + 9 * 60 ≤ s ∧
        s + duration ≤ booking_date * 1440 + 21 * 60 ∧
        (booking_date = Int.fdiv now 1440 → now + BUFFER_MINUTES ≤ s) ∧
        Int.emod s 60 = 0) ∧
      List.Pairwise (fun a b => a < b)
        (get_available_hours (some duration) booking_date now booked) := by
  intro duration booking_date now booked
  constructor
  · intro s hs
    obtain ⟨⟨h, hh, hform⟩, hmin, hend, _⟩ := mem_get_available_hours hs
    subst hform
    have hB : BUFFER_MINUTES = 1 := rfl
    have hmod : Int.emod (booking_date * 1440 + ((9 : Int) + (h : Int)) * 60) 60 = 0 := by
      have he : booking_date * 1440 + ((9 : Int) + (h : Int)) * 60 =
          60 * (booking_date * 24 + 9 + (h : Int)) := by ring
      rw [he]
      exact Int.mul_emod_right 60 _
    by_cases ht : booking_date = Int.fdiv now 1440
    · rw [if_pos ht] at hmin
      rw [not_lt, max_le_iff] at hmin
      exact ⟨hmin.1, hend, fun _ => hmin.2, hmod⟩
    · rw [if_neg ht, not_lt] at hmin
      exact ⟨hmin, hend, fun hc => absurd hc ht, hmod⟩
  · show List.Pairwise _ (List.filter _ _)
    refine List.Pairwise.filter _ ?_
    refine List.Pairwise.map _ ?_ (List.pairwise_lt_range 12)
    intro a b hab
    have : (a : Int) < (b : Int) := by exact_mod_cast hab
    omega

/-- Witness for C3 at a concrete input: the start 12:00 (2160) returned
in the C1 scenario satisfies all the window conditions. -/
theorem c3_returned_starts_in_window_witness :
    (1 : Int) * 1440 + 9 * 60 ≤ 2160 ∧
    (2160 : Int) + 60 ≤ 1 * 1440 + 21 * 60 ∧
    ((1 : Int) = Int.fdiv 600 1440 → 600 + BUFFER_MINUTES ≤ 2160) ∧
    Int.emod 2160 60 = 0 :=
  (c3_returned_starts_in_window 60 1 600
    [{ id := 1, user_id := 100, bdt := 2040, program_dur := some 60,
       status := Status.scheduled, actual_start := none,
       actual_end := none }]).1 2160 (by decide)

/-- Claim C4 (refuted, code bug): the specification requires duration
<= 0 to be treated as unschedulable (empty sequence), but the code has
no such guard: for a program of duration 0 (and also a negative
duration) on a bookings-free future day, `get_available_hours` returns
all twelve hourly starts 09:00..20:00 instead of the empty list. -/
theorem c4_zero_duration_returns_nonempty :
    get_available_hours (some 0) 1 600 [] =
      [1980, 2040, 2100, 2160, 2220, 2280, 2340, 2400, 2460, 2520, 2580,
       2640] ∧
    get_available_hours (some (-30)) 1 600 [] ≠ [] := by
  decide

/-- Claim C5 (refuted): the actual-time/status invariant does not
survive every core operation.  A finished booking with `actual_end` set
satisfies the invariant, but forcing its status back to `scheduled`
through the administrative edit path (which never clears the actual
fields) leaves `actual_end` set on a scheduled booking. -/
theorem c5_edit_breaks_invariant_cex :
    bookingInv { id := 5, user_id := 7, bdt := 600, program_dur := some 60,
                 status := Status.finished, actual_start := some 590,
                 actual_end := some 650 } ∧
    ¬ bookingInv (cmd_edit_update
      { id := 5, user_id := 7, bdt := 600, program_dur := some 60,
        status := Status.finished, actual_start := some 590,
        actual_end := some 650 } none none (some Status.scheduled)) := by
  decide

/-- Claim C5 as amended: the invariant is preserved by every successful
Start and Finish, and by an edit that does not change the status; an
edit that forces a status change can violate it. -/
theorem c5_invariant_preserved_by_start_finish :
    ∀ (b : Booking) (now : Int), bookingInv b →
      (∀ b2, start_wash b now = Except.ok b2 → bookingInv b2) ∧
      (∀ b2, finish_wash b now = Except.ok b2 → bookingInv b2) ∧
      (∀ newDate newTime,
        bookingInv (cmd_edit_update b newDate newTime none)) := by
  intro b now hinv
  refine ⟨?_, ?_, ?_⟩
  · intro b2 hok
    rcases b with ⟨i, u, bdt, pd, st, as0, ae0⟩
    cases st with
    | in_progress => simp [start_wash] at hok
    | finished => simp [start_wash] at hok
    | scheduled =>
        simp only [start_wash, Except.ok.injEq] at hok
        subst hok
        obtain ⟨h1, h2⟩ := hinv
        constructor
        · intro hne
          exact Status.noConfusion (h1 hne)
        · intro _
          exact Or.inl rfl
  · intro b2 hok
    unfold finish_wash at hok
    split at hok
    · exact absurd hok (by simp)
    · rw [Except.ok.injEq] at hok
      subst hok
      constructor
      · intro _; rfl
      · intro _; exact Or.inr rfl
  · intro newDate newTime
    obtain ⟨h1, h2⟩ := hinv
    exact ⟨h1, h2⟩

/-- Witness for C5's amended theorem: applying Start to an
invariant-satisfying scheduled booking produces an
invariant-satisfying booking. -/
theorem c5_invariant_preserved_by_start_finish_witness :
    bookingInv { id := 1, user_id := 7, bdt := 600, program_dur := some 60,
                 status := Status.in_progress, actual_start := some 50,
                 actual_end := none } :=
  (c5_invariant_preserved_by_start_finish
    { id := 1, user_id := 7, bdt := 600, program_dur := some 60,
      status := Status.scheduled, actual_start := none, actual_end := none }
    50 (by decide)).1
    { id := 1, user_id := 7, bdt := 600, program_dur := some 60,
      status := Status.in_progress, actual_start := some 50,
      actual_end := none } rfl

/-- Claim C6: on a booking that is not yet finished, Finish succeeds,
setting status to finished and `actual_end` to the current time (and
`actual_start` to its old value if set, otherwise to the current time);
a second Finish on the resulting booking fails with AlreadyFinished, so
no second update runs and `actual_end` is set exactly once across the
two calls. -/
theorem c6_finish_idempotence :
    ∀ (b : Booking) (now1 now2 : Int), b.status ≠ Status.finished →
      finish_wash b now1 =
        Except.ok { b with status := Status.finished,
                           actual_start := some (b.actual_start.getD now1),
                           actual_end := some now1 } ∧
      finish_wash { b with status := Status.finished,
                           actual_start := some (b.actual_start.getD now1),
                           actual_end := some now1 } now2 =
        Except.error WashError.alreadyFinished := by
  intro b now1 now2 h
  constructor
  · unfold finish_wash
    rw [if_neg h]
  · rfl

/-- Witness for C6 at a concrete booking. -/
theorem c6_finish_idempotence_witness :
    finish_wash { id := 9, user_id := 44, bdt := 600, program_dur := some 30,
                  status := Status.scheduled, actual_start := none,
                  actual_end := none } 100 =
      Except.ok { id := 9, user_id := 44, bdt := 600, program_dur := some 30,
                  status := Status.finished, actual_start := some 100,
                  actual_end := some 100 } ∧
    finish_wash { id := 9, user_id := 44, bdt := 600, program_dur := some 30,
                  status := Status.finished, actual_start := some 100,
                  actual_end := some 100 } 200 =
      Except.error WashError.alreadyFinished :=
  c6_finish_idempotence
    { id := 9, user_id := 44, bdt := 600, program_dur := some 30,
      status := Status.scheduled, actual_start := none, actual_end := none }
    100 200 (by decide)

/-- Claim C8 (refuted): Start does not leave a pre-existing
`actual_start` unchanged.  A scheduled booking with `actual_start`
already set (reachable by the administrative edit forcing an
in-progress booking back to scheduled) has it overwritten with the
current time by `start_wash`, which assigns `actual_start=NOW()`
unconditionally. -/
theorem c8_start_overwrites_actual_start_cex :
    (cmd_edit_update
      { id := 8, user_id := 11, bdt := 600, program_dur := some 60,
        status := Status.in_progress, actual_start := some 100,
        actual_end := none }
      none none (some Status.scheduled)).actual_start = some 100 ∧
    start_wash (cmd_edit_update
      { id := 8, user_id := 11, bdt := 600, program_dur := some 60,
        status := Status.in_progress, actual_start := some 100,
        actual_end := none }
      none none (some Status.scheduled)) 200 =
      Except.ok { id := 8, user_id := 11, bdt := 600, program_dur := some 60,
                  status := Status.in_progress, actual_start := some 200,
                  actual_end := none } ∧
    some (200 : Int) ≠ some (100 : Int) :=
  ⟨rfl, rfl, by decide⟩

/-- Claim C8 as amended: on a scheduled booking, Start sets status to
in_progress and assigns `actual_start` the current time
unconditionally, overwriting any pre-existing value. -/
theorem c8_start_sets_actual_start_unconditionally :
    ∀ (b : Booking) (now : Int), b.status = Status.scheduled →
      start_wash b now =
        Except.ok { b with status := Status.in_progress,
                           actual_start := some now } := by
  intro b now h
  rcases b with ⟨i, u, bdt, pd, st, as0, ae0⟩
  cases st with
  | scheduled => rfl
  | in_progress => exact Status.noConfusion h
  | finished => exact Status.noConfusion h

/-- Witness for C8's amended theorem: the overwrite at a concrete
booking whose `actual_start` was 100. -/
theorem c8_start_sets_actual_start_unconditionally_witness :
    start_wash { id := 8, user_id := 11, bdt := 600, program_dur := some 60,
                 status := Status.scheduled, actual_start := some 100,
                 actual_end := none } 200 =
      Except.ok { id := 8, user_id := 11, bdt := 600, program_dur := some 60,
                  status := Status.in_progress, actual_start := some 200,
                  actual_end := none } :=
  c8_start_sets_actual_start_unconditionally
    { id := 8, user_id := 11, bdt := 600, program_dur := some 60,
      status := Status.scheduled, actual_start := some 100,
      actual_end := none } 200 rfl

/-- Claim C9 (refuted): a successful Start sends no `send_notify`
message at all, in particular none to the affected booking's customer
(user 42); the handler only answers the invoking admin chat. -/
theorem c9_start_sends_no_customer_notification_cex :
    (start_wash_op
      { id := 4, user_id := 42, bdt := 600, program_dur := some 60,
        status := Status.scheduled, actual_start := none,
        actual_end := none } 300).1 =
      Except.ok { id := 4, user_id := 42, bdt := 600, program_dur := some 60,
                  status := Status.in_progress, actual_start := some 300,
                  actual_end := none } ∧
    (start_wash_op
      { id := 4, user_id := 42, bdt := 600, program_dur := some 60,
        status := Status.scheduled, actual_start := none,
        actual_end := none } 300).2 = [] :=
  ⟨rfl, rfl⟩

/-- Claim C9 as amended: the edit path notifies the affected customer
on any change; Start issues no customer notification, and a successful
Finish issues a customer notification only to the next scheduled
booking selected by the buffer notifier, not to the finished booking's
own customer. -/
theorem c9_notification_side_effects :
    ∀ (b : Booking) (now : Int) (newDate newTime : Option Int)
        (newStatus : Option Status) (others : List Booking),
      (start_wash_op b now).2 = [] ∧
      (¬ (newDate = none ∧ newTime = none ∧ newStatus = none) →
        (cmd_edit_op b newDate newTime newStatus).2 = [b.user_id]) ∧
      (∀ (b2 nb : Booking) (d : Int), finish_wash b now = Except.ok b2 →
        notify_next_after_buffer (b2 :: others) b2.bdt now = some (nb, d) →
        (finish_wash_op b others now).2 = [nb.user_id]) := by
  intro b now newDate newTime newStatus others
  refine ⟨rfl, ?_, ?_⟩
  · intro hne
    have hcond : (newDate.isNone && newTime.isNone && newStatus.isNone) ≠ true := by
      intro hc
      apply hne
      simp only [Bool.and_eq_true, Option.isNone_iff_eq_none] at hc
      exact ⟨hc.1.1, hc.1.2, hc.2⟩
    unfold cmd_edit_op
    rw [if_neg hcond]
  · intro b2 nb d hok hnn
    simp [finish_wash_op, hok, hnn]

/-- Witness for C9's amended theorem: an edit that forces a status
change notifies exactly the booking's customer (user 42). -/
theorem c9_notification_side_effects_witness :
    (cmd_edit_op { id := 4, user_id := 42, bdt := 600, program_dur := some 60,
                   status := Status.scheduled, actual_start := none,
                   actual_end := none } none none (some Status.finished)).2 =
      [42] :=
  (c9_notification_side_effects
    { id := 4, user_id := 42, bdt := 600, program_dur := some 60,
      status := Status.scheduled, actual_start := none,
      actual_end := none } 0 none none
    (some Status.finished) []).2.1 (by decide)

/-- Claim C7: whenever the buffer notifier schedules a message, the
delay is `max(fbdt + BUFFER_MINUTES - now, 0)` (computed from the
finished booking's nominal start, not its actual end), the notified
booking is a stored scheduled booking whose nominal start is strictly
after the finished booking's and on the same calendar date and is the
earliest such booking; and when no scheduled booking strictly after the
finished one lies on the same date, nothing is scheduled. -/
theorem c7_notify_next_picks_earliest_same_day :
    ∀ (bookings : List Booking) (fbdt now : Int),
      (∀ (nb : Booking) (d : Int),
        notify_next_after_buffer bookings fbdt now = some (nb, d) →
        d = max (fbdt + BUFFER_MINUTES - now) 0 ∧
        nb ∈ bookings ∧ nb.status = Status.scheduled ∧ fbdt < nb.bdt ∧
        Int.fdiv nb.bdt 1440 = Int.fdiv fbdt 1440 ∧
        ∀ b ∈ bookings, b.status = Status.scheduled → fbdt < b.bdt →
          Int.fdiv b.bdt 1440 = Int.fdiv fbdt 1440 → nb.bdt ≤ b.bdt) ∧
      ((∀ b ∈ bookings, b.status = Status.scheduled → fbdt < b.bdt →
          Int.fdiv b.bdt 1440 ≠ Int.fdiv fbdt 1440) →
        notify_next_after_buffer bookings fbdt now = none) := by
  intro bookings fbdt now
  constructor
  · intro nb d hsome
    unfold notify_next_after_buffer at hsome
    cases hnext : next_booking bookings fbdt with
    | none =>
        rw [hnext] at hsome
        have hsome2 : (none : Option (Booking × Int)) = some (nb, d) := hsome
        exact absurd hsome2 (by simp)
    | some nb2 =>
        rw [hnext] at hsome
        have hsome2 : (if Int.fdiv nb2.bdt 1440 = Int.fdiv fbdt 1440 then
            some (nb2, max (fbdt + BUFFER_MINUTES - now) 0)
          else none) = some (nb, d) := hsome
        obtain ⟨⟨hmem, hs, hlt⟩, hall⟩ := next_booking_min hnext
        by_cases hd : Int.fdiv nb2.bdt 1440 = Int.fdiv fbdt 1440
        · rw [if_pos hd, Option.some.injEq, Prod.mk.injEq] at hsome2
          obtain ⟨rfl, rfl⟩ := hsome2
          refine ⟨rfl, hmem, hs, hlt, hd, ?_⟩
          intro b hb hbs hblt _
          exact (hall b hb hbs hblt).1
        · rw [if_neg hd] at hsome2
          exact absurd hsome2 (by simp)
  · intro hnone
    unfold notify_next_after_buffer
    cases hnext : next_booking bookings fbdt with
    | none => rfl
    | some nb2 =>
        obtain ⟨⟨hmem, hs, hlt⟩, _⟩ := next_booking_min hnext
        show (if Int.fdiv nb2.bdt 1440 = Int.fdiv fbdt 1440 then
            some (nb2, max (fbdt + BUFFER_MINUTES - now) 0)
          else none) = none
        rw [if_neg (hnone nb2 hmem hs hlt)]

/-- Witness for C7 at a concrete input: for a finished booking at
nominal 10:00 of day 1 (2040) with one scheduled booking at 12:00
(2160) the same day and `now` 11:00 (2100), the scheduled delay is
`max(2040 + 1 - 2100, 0) = 0`. -/
theorem c7_notify_next_picks_earliest_same_day_witness :
    (0 : Int) = max ((2040 : Int) + BUFFER_MINUTES - 2100) 0 :=
  ((c7_notify_next_picks_earliest_same_day
    [{ id := 2, user_id := 200, bdt := 2160, program_dur := some 60,
       status := Status.scheduled, actual_start := none,
       actual_end := none }] 2040 2100).1
    { id := 2, user_id := 200, bdt := 2160, program_dur := some 60,
      status := Status.scheduled, actual_start := none, actual_end := none }
    0 (by decide)).1

/-- Claim C10: the booking the notifier selects is minimal among all
scheduled bookings with nominal start strictly after the finished one,
in the lexicographic order of (booking_datetime, id): its start is at
most every candidate's start, and among candidates sharing its start it
has the smallest id. -/
theorem c10_tie_broken_by_smallest_id :
    ∀ (bookings : List Booking) (fbdt now : Int) (nb : Booking) (d : Int),
      notify_next_after_buffer bookings fbdt now = some (nb, d) →
      ∀ b ∈ bookings, b.status = Status.scheduled → fbdt < b.bdt →
        nb.bdt ≤ b.bdt ∧ (b.bdt = nb.bdt → nb.id ≤ b.id) := by
  intro bookings fbdt now nb d hsome b hb hbs hblt
  unfold notify_next_after_buffer at hsome
  cases hnext : next_booking bookings fbdt with
  | none =>
      rw [hnext] at hsome
      have hsome2 : (none : Option (Booking × Int)) = some (nb, d) := hsome
      exact absurd hsome2 (by simp)
  | some nb2 =>
      rw [hnext] at hsome
      have hsome2 : (if Int.fdiv nb2.bdt 1440 = Int.fdiv fbdt 1440 then
          some (nb2, max (fbdt + BUFFER_MINUTES - now) 0)
        else none) = some (nb, d) := hsome
      by_cases hd : Int.fdiv nb2.bdt 1440 = Int.fdiv fbdt 1440
      · rw [if_pos hd, Option.some.injEq, Prod.mk.injEq] at hsome2
        obtain ⟨rfl, rfl⟩ := hsome2
        obtain ⟨_, hall⟩ := next_booking_min hnext
        obtain ⟨h1, h2⟩ := hall b hb hbs hblt
        exact ⟨h1, fun he => h2 he.symm⟩
      · rw [if_neg hd] at hsome2
        exact absurd hsome2 (by simp)

/-- Witness for C10 at a concrete input: two scheduled bookings share
the earliest start 12:00 (2160) after the finished booking; the one
with id 2 is selected, so for the other candidate (id 3) the ordering
facts hold. -/
theorem c10_tie_broken_by_smallest_id_witness :
    (2160 : Int) ≤ 2160 ∧ ((2160 : Int) = 2160 → 2 ≤ 3) :=
  c10_tie_broken_by_smallest_id
    [{ id := 3, user_id := 300, bdt := 2160, program_dur := some 60,
       status := Status.scheduled, actual_start := none, actual_end := none },
     { id := 2, user_id := 200, bdt := 2160, program_dur := some 60,
       status := Status.scheduled, actual_start := none, actual_end := none }]
    2040 2100
    { id := 2, user_id := 200, bdt := 2160, program_dur := some 60,
      status := Status.scheduled, actual_start := none, actual_end := none }
    0 (by decide)
    { id := 3, user_id := 300, bdt := 2160, program_dur := some 60,
      status := Status.scheduled, actual_start := none, actual_end := none }
    (by decide) (by decide) (by decide)
